import Mathlib

/-!
Verification of the go_my_cloudflared reverse-tunnel relay/agent pair.

The definitions below are a shallow embedding of the two Go sources:
  - `Relay`  embeds cmd/server/go_my_cloudflared_server.go
  - `Agent`  embeds cmd/client/go_client_MC.go
Go maps (`clients`, `pendingRequests`, header maps) are modelled as
association lists over `String` keys with Go-map semantics (assignment
replaces the binding for an existing key, delete removes it, lookup finds
the unique binding).
-/

/-- Association-list lookup, modelling Go map indexing `m[k]`. -/
def lookupAssoc {β : Type} (m : List (String × β)) (k : String) : Option β :=
  match m with
  | [] => none
  | (k', v) :: rest => if k' = k then some v else lookupAssoc rest k

/-- Association-list update, modelling Go map assignment `m[k] = v`
(replaces the binding when the key is present, appends otherwise). -/
def setAssoc {β : Type} (m : List (String × β)) (k : String) (v : β) :
    List (String × β) :=
  match m with
  | [] => [(k, v)]
  | (k', v') :: rest =>
    if k' = k then (k, v) :: rest else (k', v') :: setAssoc rest k v

/-- Association-list removal, modelling Go `delete(m, k)`. -/
def eraseAssoc {β : Type} (m : List (String × β)) (k : String) :
    List (String × β) :=
  m.filter (fun kv => !(kv.1 == k))

/-- Number of bindings carrying key `k`. -/
def countKey {β : Type} (m : List (String × β)) (k : String) : Nat :=
  (m.filter (fun kv => kv.1 == k)).length

/-- The header projection both Go programs apply when converting an
`http.Header` (name → list of values) into the wire map (name → string):
`for k, v := range hdr { if len(v) > 0 { out[k] = v[0] } }`. -/
def firstValues (hs : List (String × List String)) : List (String × String) :=
  match hs with
  | [] => []
  | (_, []) :: rest => firstValues rest
  | (k, v :: _) :: rest => (k, v) :: firstValues rest

/-- All (name, value) pairs of a multi-valued header map, flattened. -/
def flattenHeaders (hs : List (String × List String)) :
    List (String × String) :=
  match hs with
  | [] => []
  | (k, vs) :: rest => vs.map (fun v => (k, v)) ++ flattenHeaders rest

/-- The `http_response` wire message built by the agent
(`go_client_MC.go`, handleHTTPRequest / sendErrorResponse): tagged type,
correlation id, and the data fields; `error` is `none` when the message
carries no error key (the success path omits it). -/
structure ResponseMsg where
  msgType : String
  id : String
  statusCode : Int
  headers : List (String × String)
  body : String
  error : Option String
deriving DecidableEq

namespace Relay

/-- Parsed response record, `HTTPResponse` of the server source; the
server's `handleHTTPResponse` leaves `Error` as `""` when the message
has no `error` field. -/
structure HTTPResponse where
  statusCode : Int
  headers : List (String × String)
  body : String
  error : String
deriving DecidableEq

/-- A registered agent session, `Client` of the server source
(the websocket handle is abstracted to a numeric channel handle;
`LastPing` is not needed by any claim). -/
structure Client where
  id : String
  conn : Nat
  host : String
  port : Int
deriving DecidableEq

/-- `validateToken` of the server source: empty header fails; a
`"Bearer "` prefix is stripped only when the header is strictly longer
than 7 characters; the remainder must equal one of the configured
tokens. -/
def validateToken (tokens : List String) (authHeader : String) : Bool :=
  if authHeader = "" then false
  else
    let token : String :=
      match authHeader.data with
      | 'B' :: 'e' :: 'a' :: 'r' :: 'e' :: 'r' :: ' ' :: c :: rest =>
        ⟨c :: rest⟩
      | _ => authHeader
    tokens.contains token

/-- Upper bound of Go's 64-bit `int`. -/
def int64Max : Int := 9223372036854775807

/-- Lower bound of Go's 64-bit `int`. -/
def int64Min : Int := -9223372036854775808

/-- Decimal digit run accumulator for `goAtoi`. -/
def digitsToNat (cs : List Char) (acc : Nat) : Option Nat :=
  match cs with
  | [] => some acc
  | c :: rest =>
    if c.isDigit then digitsToNat rest (acc * 10 + (c.toNat - 48)) else none

/-- Syntactic base-10 integer parse: optional sign then a nonempty digit
run; `none` on any other shape (Go's `strconv.ErrSyntax`). -/
def goParseInt (s : String) : Option Int :=
  let signSplit : Bool × List Char :=
    match s.data with
    | '-' :: rest => (true, rest)
    | '+' :: rest => (false, rest)
    | cs => (false, cs)
  match signSplit.2 with
  | [] => none
  | ds =>
    match digitsToNat ds 0 with
    | none => none
    | some n =>
      some (if signSplit.1 then -(n : Int) else (n : Int))

/-- Go's `strconv.Atoi` with its error discarded, as the server does at
`port, _ := strconv.Atoi(portStr)`: syntax errors yield 0, out-of-range
values are clamped to the `int` bounds (Go returns the clamped value
alongside `ErrRange`). -/
def goAtoi (s : String) : Int :=
  match goParseInt s with
  | none => 0
  | some v =>
    if v < int64Min then int64Min else if int64Max < v then int64Max else v

/-- Outcome of one websocket handshake attempt. -/
inductive HandshakeResult where
  | rejected (status : Int)
  | upgraded (c : Client)
deriving DecidableEq

/-- `handleWebSocket` of the server source, up to session registration:
reject 401 before upgrading when auth is required and the token fails;
otherwise default the declared host to `"localhost"` when the
`X-Tunnel-Host` header is empty, default the port to 3000 when
`strconv.Atoi` of `X-Tunnel-Port` gives 0, and store the client under
its generated id with a plain map assignment. -/
def handleWebSocket (requireAuth : Bool) (tokens : List String)
    (authHeader hostHdr portHdr clientID : String) (connHandle : Nat)
    (clients : List (String × Client)) :
    HandshakeResult × List (String × Client) :=
  if requireAuth && !(validateToken tokens authHeader) then
    (.rejected 401, clients)
  else
    let host := if hostHdr = "" then "localhost" else hostHdr
    let port0 := goAtoi portHdr
    let port := if port0 = 0 then 3000 else port0
    let client : Client := ⟨clientID, connHandle, host, port⟩
    (.upgraded client, setAssoc clients clientID client)

/-- The `http_request` wire message (server source, handleHTTPRequest
lines building `requestMsg`). -/
structure HttpRequestMsg where
  msgType : String
  id : String
  method : String
  url : String
  query : String
  headers : List (String × String)
  body : String
deriving DecidableEq

/-- The server's construction of the forwarded `http_request` message:
method, `r.URL.Path`, `r.URL.RawQuery` and the body string are copied,
and the header map keeps only the first value of each name. -/
def buildRequestMsg (requestID method path query : String)
    (hdrs : List (String × List String)) (body : String) : HttpRequestMsg :=
  ⟨"http_request", requestID, method, path, query, firstValues hdrs, body⟩

/-- Registration of a PendingRequest: `s.pendingRequests[requestID] = ch`. -/
def registerPending (m : List (String × Nat)) (id : String) (ch : Nat) :
    List (String × Nat) :=
  setAssoc m id ch

/-- What the response-routing path does with an incoming message. -/
inductive RouteOutcome where
  | delivered (ch : Nat) (r : HTTPResponse)
  | discarded
deriving DecidableEq

/-- `handleHTTPResponse` of the server source, routing step: under the
lock, look the correlation id up in `pendingRequests`; when present,
delete it and deliver the parsed response into the waiting channel; when
absent, log `"未找到等待的请求"` and return with the map untouched. -/
def handleHTTPResponse (m : List (String × Nat)) (id : String)
    (r : HTTPResponse) : List (String × Nat) × RouteOutcome :=
  match lookupAssoc m id with
  | some ch => (eraseAssoc m id, .delivered ch r)
  | none => (m, .discarded)

/-- The delete of the pending entry that the forwarding handler performs
itself, both after receiving on its channel and on timeout expiry. -/
def timeoutCleanup (m : List (String × Nat)) (id : String) :
    List (String × Nat) :=
  eraseAssoc m id

/-- Parsing of an `http_response` message into the server's
`HTTPResponse` record: a missing `error` field leaves `Error` empty. -/
def parseResponse (msg : ResponseMsg) : HTTPResponse :=
  { statusCode := msg.statusCode
    headers := msg.headers
    body := msg.body
    error := msg.error.getD "" }

/-- What the forwarding handler writes back to the public caller. -/
structure PublicReply where
  status : Int
  headers : List (String × String)
  body : String
deriving DecidableEq

/-- Go's `http.Error(w, msg, code)`: plain-text headers, the message
plus a newline as body, and the given status. -/
def httpError (msg : String) (code : Int) : PublicReply :=
  ⟨code,
   [("Content-Type", "text/plain; charset=utf-8"),
    ("X-Content-Type-Options", "nosniff")],
   msg ++ "\n"⟩

/-- `handleHTTPRequest` of the server source, as a function of the
branch conditions it meets in order: no registered client → 503; body
read failure → 400; write to the selected client failed → 500; then the
wait: timeout (`none`) → 504; a response with a nonempty error → 502
carrying the error text; otherwise the response's status, headers and
body are written back. -/
def forwardReply (clients : List (String × Client)) (bodyReadOk writeOk : Bool)
    (wire : Option HTTPResponse) : PublicReply :=
  if clients.isEmpty then httpError "没有可用的隧道客户端" 503
  else if !bodyReadOk then httpError "读取请求体失败" 400
  else if !writeOk then httpError "发送请求失败" 500
  else
    match wire with
    | none => httpError "请求超时" 504
    | some r =>
      if r.error = "" then ⟨r.statusCode, r.headers, r.body⟩
      else httpError r.error 502

end Relay

namespace Agent

/-- Outcome of the agent's attempt to execute a forwarded request
against the local service (`go_client_MC.go`, handleHTTPRequest): the
three failure sites in source order, or the local service's reply. -/
inductive LocalOutcome where
  | buildErr (msg : String)
  | connErr (msg : String)
  | readErr (msg : String)
  | success (status : Int) (headers : List (String × List String)) (body : String)
deriving DecidableEq

/-- `sendErrorResponse` of the client source: a well-formed
`http_response` with status 500, a text/plain header, empty body and the
error text. -/
def errorResponse (requestID errorMsg : String) : ResponseMsg :=
  ⟨"http_response", requestID, 500, [("Content-Type", "text/plain")], "",
   some errorMsg⟩

/-- The message the agent's `handleHTTPRequest` produces for a forwarded
request: each failure site routes through `sendErrorResponse` with its
own prefix, and the success path copies the local status, the first
value of each response header, and the body, with no error field. -/
def dispatch (requestID : String) : LocalOutcome → ResponseMsg
  | .buildErr m => errorResponse requestID ("创建请求失败: " ++ m)
  | .connErr m => errorResponse requestID ("请求本地服务失败: " ++ m)
  | .readErr m => errorResponse requestID ("读取响应体失败: " ++ m)
  | .success status hdrs body =>
    ⟨"http_response", requestID, status, firstValues hdrs, body, none⟩

/-- The mutable fields of `TunnelClient` that the lifecycle claims
touch: whether `conn` is non-nil, the `connected` flag, the reconnect
counter, and whether `stopChan` has been closed. -/
structure ClientState where
  connIsSet : Bool
  connected : Bool
  reconnectCount : Nat
  stopClosed : Bool
deriving DecidableEq

/-- Successful `connect()`: stores the connection, sets `connected`, and
resets `reconnectCount` to 0. -/
def connectOk (s : ClientState) : ClientState :=
  { s with connIsSet := true, connected := true, reconnectCount := 0 }

/-- The deferred teardown of `handleMessages`: closes and clears the
connection, clears `connected`, and then spawns `reconnect()`. -/
def readLoopTeardown (s : ClientState) : ClientState :=
  { s with connIsSet := false, connected := false }

/-- `Stop()` of the client source: closes `stopChan`, closes the
connection (the field keeps its handle), and clears `connected`. It does
not touch `reconnectCount`. -/
def stopClient (s : ClientState) : ClientState :=
  { s with connected := false, stopClosed := true }

/-- Reconnect policy configuration (`tunnel.reconnectAttempts`,
`tunnel.reconnectDelay` in milliseconds). -/
structure ReconnectCfg where
  reconnectAttempts : Nat
  reconnectDelay : Nat
deriving DecidableEq

/-- One entry into `reconnect()` at a given counter value: increment the
counter; give up when it exceeds the configured maximum; otherwise wait
`reconnectDelay * count` milliseconds and attempt to dial. Returns the
scheduled delay and the new counter, or `none` when no attempt is made. -/
def reconnectStep (cfg : ReconnectCfg) (count : Nat) : Option (Nat × Nat) :=
  let c := count + 1
  if cfg.reconnectAttempts < c then none
  else some (cfg.reconnectDelay * c, c)

/-- `reconnect()` on the full client state. Faithful to the source: the
decision reads only `reconnectCount` and the config — it never consults
`stopChan`. -/
def reconnectAttempt (cfg : ReconnectCfg) (s : ClientState) :
    Option (Nat × ClientState) :=
  match reconnectStep cfg s.reconnectCount with
  | none => none
  | some (d, c) => some (d, { s with reconnectCount := c })

/-- The delays scheduled by a run of up to `k` consecutive failed
reconnect attempts starting from counter value `count` (each failed dial
re-enters `reconnect()` with the incremented counter). -/
def failureDelays (cfg : ReconnectCfg) : Nat → Nat → List Nat
  | _, 0 => []
  | count, Nat.succ k =>
    match reconnectStep cfg count with
    | none => []
    | some (d, c) => d :: failureDelays cfg c k

/-- Whether a heartbeat tick writes a heartbeat message. -/
inductive HeartbeatAction where
  | emit
  | skip
deriving DecidableEq

/-- Fixed heartbeat period of the client source (`time.NewTicker(30 *
time.Second)`). -/
def heartbeatIntervalSeconds : Nat := 30

/-- One tick of the `heartbeat()` loop: skip when not connected;
otherwise write the heartbeat message if the connection is set. The
source discards `WriteJSON`'s return value, so the resulting state does
not depend on `writeOk` and no transition is taken on a write failure. -/
def heartbeatTick (s : ClientState) (_writeOk : Bool) :
    ClientState × HeartbeatAction :=
  if !s.connected then (s, .skip)
  else if s.connIsSet then (s, .emit)
  else (s, .skip)

end Agent

/-! ## Lemmas about the association-list map model -/

theorem lookup_setAssoc_self {β : Type} (m : List (String × β)) (k : String)
    (v : β) : lookupAssoc (setAssoc m k v) k = some v := by
  induction m with
  | nil => simp [setAssoc, lookupAssoc]
  | cons kv rest ih =>
    obtain ⟨k', v'⟩ := kv
    by_cases h : k' = k
    · simp [setAssoc, lookupAssoc, h]
    · simp [setAssoc, lookupAssoc, h, ih]

theorem countKey_setAssoc_fresh {β : Type} (m : List (String × β)) (k : String)
    (v : β) (h : lookupAssoc m k = none) : countKey (setAssoc m k v) k = 1 := by
  induction m with
  | nil => simp [setAssoc, countKey]
  | cons kv rest ih =>
    obtain ⟨k', v'⟩ := kv
    by_cases hk : k' = k
    · simp [lookupAssoc, hk] at h
    · simp only [lookupAssoc, if_neg hk] at h
      simpa [setAssoc, hk, countKey, List.filter_cons] using ih h

theorem countKey_setAssoc_of_mem {β : Type} (m : List (String × β)) (k : String)
    (v w : β) (h : lookupAssoc m k = some w) :
    countKey (setAssoc m k v) k = countKey m k := by
  induction m with
  | nil => simp [lookupAssoc] at h
  | cons kv rest ih =>
    obtain ⟨k', v'⟩ := kv
    by_cases hk : k' = k
    · subst hk
      simp [setAssoc, countKey, List.filter_cons]
    · simp only [lookupAssoc, if_neg hk] at h
      simpa [setAssoc, hk, countKey, List.filter_cons] using ih h

theorem lookup_eraseAssoc_self {β : Type} (m : List (String × β)) (k : String) :
    lookupAssoc (eraseAssoc m k) k = none := by
  induction m with
  | nil => rfl
  | cons kv rest ih =>
    obtain ⟨k', v'⟩ := kv
    by_cases h : k' = k
    · simpa [eraseAssoc, List.filter_cons, h] using ih
    · simpa [eraseAssoc, List.filter_cons, h, lookupAssoc] using ih

theorem eraseAssoc_idem {β : Type} (m : List (String × β)) (k : String) :
    eraseAssoc (eraseAssoc m k) k = eraseAssoc m k := by
  induction m with
  | nil => rfl
  | cons kv rest ih =>
    by_cases h : kv.1 = k
    · simp [eraseAssoc, List.filter_cons, h]
    · simp [eraseAssoc, List.filter_cons, h]

theorem lookupAssoc_eq_none_of_not_mem {β : Type} (m : List (String × β))
    (k : String) (h : k ∉ m.map Prod.fst) : lookupAssoc m k = none := by
  induction m with
  | nil => rfl
  | cons kv rest ih =>
    simp only [List.map_cons, List.mem_cons, not_or] at h
    obtain ⟨h1, h2⟩ := h
    obtain ⟨k', v'⟩ := kv
    have : ¬ k' = k := fun hh => h1 hh.symm
    simp [lookupAssoc, this, ih h2]

theorem lookup_firstValues_none (hs : List (String × List String)) (k : String)
    (h : lookupAssoc hs k = none) : lookupAssoc (firstValues hs) k = none := by
  induction hs with
  | nil => rfl
  | cons kv rest ih =>
    obtain ⟨k', vs⟩ := kv
    by_cases hk : k' = k
    · simp [lookupAssoc, hk] at h
    · simp only [lookupAssoc, if_neg hk] at h
      cases vs with
      | nil => simpa [firstValues] using ih h
      | cons v vs' => simpa [firstValues, lookupAssoc, hk] using ih h

theorem lookup_firstValues (hs : List (String × List String)) (k : String)
    (hnd : (hs.map Prod.fst).Nodup) :
    lookupAssoc (firstValues hs) k = (lookupAssoc hs k).bind List.head? := by
  induction hs with
  | nil => rfl
  | cons kv rest ih =>
    obtain ⟨k', vs⟩ := kv
    simp only [List.map_cons, List.nodup_cons] at hnd
    obtain ⟨hk', hrest⟩ := hnd
    cases vs with
    | nil =>
      by_cases hk : k' = k
      · subst hk
        have hnone : lookupAssoc rest k' = none :=
          lookupAssoc_eq_none_of_not_mem rest k' hk'
        simp [firstValues, lookupAssoc, lookup_firstValues_none rest k' hnone]
      · simp [firstValues, lookupAssoc, if_neg hk, ih hrest]
    | cons v vs' =>
      by_cases hk : k' = k
      · subst hk
        simp [firstValues, lookupAssoc]
      · simp [firstValues, lookupAssoc, if_neg hk, ih hrest]

theorem string_append_ne_empty (a b : String) (ha : a ≠ "") : a ++ b ≠ "" := by
  intro h
  apply ha
  have hd := congrArg String.data h
  rw [String.data_append] at hd
  rcases List.append_eq_nil.mp hd with ⟨h1, _⟩
  exact String.ext h1

/-! ## Claim theorems -/

/-- C1: a PendingRequest registered under a fresh identifier appears
exactly once in the map; a matching `http_response` removes it and
delivers the result to the waiting channel; afterwards the timeout
path's removal is a no-op; and if the timeout removal happens first, the
late response leaves the map untouched and is discarded without being
escalated. -/
theorem c1_pending_lifecycle (m : List (String × Nat)) (id : String) (ch : Nat)
    (r : Relay.HTTPResponse) (hfresh : lookupAssoc m id = none) :
    countKey (Relay.registerPending m id ch) id = 1 ∧
    Relay.handleHTTPResponse (Relay.registerPending m id ch) id r =
      (eraseAssoc (Relay.registerPending m id ch) id, .delivered ch r) ∧
    Relay.timeoutCleanup (eraseAssoc (Relay.registerPending m id ch) id) id =
      eraseAssoc (Relay.registerPending m id ch) id ∧
    Relay.handleHTTPResponse
        (Relay.timeoutCleanup (Relay.registerPending m id ch) id) id r =
      (Relay.timeoutCleanup (Relay.registerPending m id ch) id, .discarded) := by
  refine ⟨countKey_setAssoc_fresh m id ch hfresh, ?_, ?_, ?_⟩
  · simp [Relay.handleHTTPResponse, Relay.registerPending, lookup_setAssoc_self]
  · simp [Relay.timeoutCleanup, eraseAssoc_idem]
  · simp [Relay.handleHTTPResponse, Relay.timeoutCleanup, Relay.registerPending,
      lookup_eraseAssoc_self]

/-- Witness for C1 at a concrete fresh identifier. -/
theorem c1_pending_lifecycle_witness :
    lookupAssoc ([] : List (String × Nat)) "req_1" = none ∧
    countKey (Relay.registerPending [] "req_1" 0) "req_1" = 1 :=
  ⟨rfl, (c1_pending_lifecycle [] "req_1" 0 ⟨200, [], "ok", ""⟩ rfl).1⟩

/-- C2 counterexample: a request header carrying two values is not
forwarded verbatim — the `http_request` message keeps only the first
value, so the flattened header pairs of the message differ from those of
the original request. -/
theorem c2_headers_counterexample :
    (Relay.buildRequestMsg "req_1" "GET" "/p" "" [("Accept", ["a", "b"])]
        "").headers = [("Accept", "a")] ∧
    flattenHeaders [("Accept", ["a", "b"])] =
      [("Accept", "a"), ("Accept", "b")] ∧
    ([("Accept", "a")] : List (String × String)) ≠
      [("Accept", "a"), ("Accept", "b")] :=
  ⟨rfl, rfl, by decide⟩

/-- C2 amended: the forwarded `http_request` message carries the
original method, path, query and body exactly, and for each header name
the first of its values; symmetrically, for a successful local reply the
public caller receives the local status and body exactly and the first
value of each local response header. -/
theorem c2_amended (requestID method path query : String)
    (hdrs : List (String × List String)) (body : String) (k k2 : String)
    (hnd : (hdrs.map Prod.fst).Nodup)
    (clients : List (String × Relay.Client)) (hc : clients ≠ [])
    (id : String) (status : Int) (localHdrs : List (String × List String))
    (lbody : String) (hnd2 : (localHdrs.map Prod.fst).Nodup) :
    (Relay.buildRequestMsg requestID method path query hdrs body).method =
      method ∧
    (Relay.buildRequestMsg requestID method path query hdrs body).url = path ∧
    (Relay.buildRequestMsg requestID method path query hdrs body).query =
      query ∧
    (Relay.buildRequestMsg requestID method path query hdrs body).body = body ∧
    lookupAssoc
        (Relay.buildRequestMsg requestID method path query hdrs body).headers
        k = (lookupAssoc hdrs k).bind List.head? ∧
    Relay.forwardReply clients true true
        (some (Relay.parseResponse
          (Agent.dispatch id (.success status localHdrs lbody)))) =
      ⟨status, firstValues localHdrs, lbody⟩ ∧
    lookupAssoc (Relay.forwardReply clients true true
        (some (Relay.parseResponse
          (Agent.dispatch id (.success status localHdrs lbody))))).headers k2 =
      (lookupAssoc localHdrs k2).bind List.head? := by
  have hemp : clients.isEmpty = false := by
    cases clients with
    | nil => exact absurd rfl hc
    | cons a l => rfl
  have hpipe : Relay.forwardReply clients true true
      (some (Relay.parseResponse
        (Agent.dispatch id (.success status localHdrs lbody)))) =
      ⟨status, firstValues localHdrs, lbody⟩ := by
    simp [Relay.forwardReply, Relay.parseResponse, Agent.dispatch, hemp]
  refine ⟨rfl, rfl, rfl, rfl, lookup_firstValues hdrs k hnd, hpipe, ?_⟩
  rw [hpipe]
  exact lookup_firstValues localHdrs k2 hnd2

/-- Witness for C2 amended on the spec's own scenario: local target
answers 200 with body `ok` and header `X-Reply: b`. -/
theorem c2_amended_witness :
    (([("X-Test", ["a"])] : List (String × List String)).map Prod.fst).Nodup ∧
    ([("client_1", (⟨"client_1", 1, "localhost", 3000⟩ : Relay.Client))] ≠
      []) ∧
    Relay.forwardReply [("client_1", ⟨"client_1", 1, "localhost", 3000⟩)] true
        true
        (some (Relay.parseResponse (Agent.dispatch "req_1"
          (.success 200 [("X-Reply", ["b"])] "ok")))) =
      ⟨200, [("X-Reply", "b")], "ok"⟩ :=
  ⟨by decide, by decide,
    (c2_amended "req_1" "GET" "/status" "x=1" [("X-Test", ["a"])] "" "X-Test"
      "X-Reply" (by decide)
      [("client_1", ⟨"client_1", 1, "localhost", 3000⟩)] (by decide)
      "req_1" 200 [("X-Reply", ["b"])] "ok" (by decide)).2.2.2.2.2.1⟩

/-- C3: the forwarding handler answers 503 when no client is registered,
502 when the agent's response carries a nonempty error, and 504 when the
wait times out. -/
theorem c3_status_codes (clients : List (String × Relay.Client))
    (r : Relay.HTTPResponse) (hne : clients ≠ []) (herr : r.error ≠ "") :
    (Relay.forwardReply [] true true none).status = 503 ∧
    (Relay.forwardReply clients true true (some r)).status = 502 ∧
    (Relay.forwardReply clients true true none).status = 504 := by
  have hemp : clients.isEmpty = false := by
    cases clients with
    | nil => exact absurd rfl hne
    | cons a l => rfl
  refine ⟨rfl, ?_, ?_⟩
  · simp [Relay.forwardReply, Relay.httpError, hemp, herr]
  · simp [Relay.forwardReply, Relay.httpError, hemp]

/-- Witness for C3 with one registered client and an erroring agent. -/
theorem c3_status_codes_witness :
    ([("client_1", (⟨"client_1", 1, "localhost", 3000⟩ : Relay.Client))] ≠
      []) ∧
    ((⟨200, [], "", "boom"⟩ : Relay.HTTPResponse).error ≠ "") ∧
    (Relay.forwardReply [("client_1", ⟨"client_1", 1, "localhost", 3000⟩)]
        true true (some ⟨200, [], "", "boom"⟩)).status = 502 :=
  ⟨by decide, by decide,
    (c3_status_codes [("client_1", ⟨"client_1", 1, "localhost", 3000⟩)]
      ⟨200, [], "", "boom"⟩ (by decide) (by decide)).2.1⟩

/-- C4: whatever the local dispatch outcome, the agent produces an
`http_response` message carrying the forwarded request's identifier; on
success it carries the local status, first-value headers and body with
no error field, and on any of the three failure sites it carries a
nonempty error field. -/
theorem c4_dispatch_always_responds (requestID : String)
    (outcome : Agent.LocalOutcome) :
    (Agent.dispatch requestID outcome).msgType = "http_response" ∧
    (Agent.dispatch requestID outcome).id = requestID ∧
    (∀ status hdrs body, outcome = .success status hdrs body →
      Agent.dispatch requestID outcome =
        ⟨"http_response", requestID, status, firstValues hdrs, body, none⟩) ∧
    (∀ em, outcome = .buildErr em ∨ outcome = .connErr em ∨
        outcome = .readErr em →
      ∃ e, (Agent.dispatch requestID outcome).error = some e ∧ e ≠ "") := by
  cases outcome with
  | buildErr em =>
    refine ⟨rfl, rfl, ?_, ?_⟩
    · intro status hdrs body h
      simp at h
    · intro em' _
      exact ⟨"创建请求失败: " ++ em, rfl,
        string_append_ne_empty _ _ (by decide)⟩
  | connErr em =>
    refine ⟨rfl, rfl, ?_, ?_⟩
    · intro status hdrs body h
      simp at h
    · intro em' _
      exact ⟨"请求本地服务失败: " ++ em, rfl,
        string_append_ne_empty _ _ (by decide)⟩
  | readErr em =>
    refine ⟨rfl, rfl, ?_, ?_⟩
    · intro status hdrs body h
      simp at h
    · intro em' _
      exact ⟨"读取响应体失败: " ++ em, rfl,
        string_append_ne_empty _ _ (by decide)⟩
  | success status hdrs body =>
    refine ⟨rfl, rfl, ?_, ?_⟩
    · intro s h b heq
      cases heq
      rfl
    · intro em' h
      rcases h with h | h | h <;> simp at h

/-- Witness for C4 at a concrete connection failure. -/
theorem c4_dispatch_always_responds_witness :
    (Agent.dispatch "req_9" (.connErr "connection refused")).id = "req_9" ∧
    ∃ e, (Agent.dispatch "req_9" (.connErr "connection refused")).error =
        some e ∧ e ≠ "" := by
  have h := c4_dispatch_always_responds "req_9" (.connErr "connection refused")
  exact ⟨h.2.1, h.2.2.2 "connection refused" (Or.inr (Or.inl rfl))⟩

/-- Closed form of the delays scheduled by consecutive failed reconnect
attempts: starting from counter `c` with at least enough failures to
exhaust the budget, the delays are `reconnectDelay * count` for each
counter value up to the configured maximum. -/
theorem failureDelays_closed (cfg : Agent.ReconnectCfg) :
    ∀ (k c : Nat), cfg.reconnectAttempts - c ≤ k →
      Agent.failureDelays cfg c k =
        (List.range (cfg.reconnectAttempts - c)).map
          (fun i => cfg.reconnectDelay * (c + i + 1)) := by
  intro k
  induction k with
  | zero =>
    intro c hc
    have h0 : cfg.reconnectAttempts - c = 0 := Nat.le_zero.mp hc
    simp [Agent.failureDelays, h0]
  | succ k ih =>
    intro c hc
    by_cases hstop : cfg.reconnectAttempts < c + 1
    · have h0 : cfg.reconnectAttempts - c = 0 := by omega
      simp [Agent.failureDelays, Agent.reconnectStep, hstop, h0]
    · have hrec : cfg.reconnectAttempts - (c + 1) ≤ k := by omega
      have hn : cfg.reconnectAttempts - c =
          (cfg.reconnectAttempts - (c + 1)) + 1 := by omega
      have hstep : Agent.failureDelays cfg c (k + 1) =
          cfg.reconnectDelay * (c + 1) :: Agent.failureDelays cfg (c + 1) k := by
        simp [Agent.failureDelays, Agent.reconnectStep, hstop]
      rw [hstep, ih (c + 1) hrec, hn, List.range_succ_eq_map, List.map_cons,
        List.map_map]
      refine congrArg₂ List.cons (by ring_nf) ?_
      apply List.map_congr_left
      intro a _
      simp only [Function.comp_apply, Nat.succ_eq_add_one]
      ring

/-- C5: with at least `reconnectAttempts` consecutive failures, the
agent schedules exactly `reconnectAttempts` reconnect attempts, the k-th
attempt (1-based) waiting `reconnectDelay * k` milliseconds; entering
`reconnect` with the counter already at the maximum makes no further
attempt; and a successful connect resets the counter to zero. -/
theorem c5_backoff (cfg : Agent.ReconnectCfg) (k : Nat)
    (s : Agent.ClientState) (hk : cfg.reconnectAttempts ≤ k) :
    Agent.failureDelays cfg 0 k =
      (List.range cfg.reconnectAttempts).map
        (fun i => cfg.reconnectDelay * (i + 1)) ∧
    (Agent.failureDelays cfg 0 k).length = cfg.reconnectAttempts ∧
    Agent.reconnectStep cfg cfg.reconnectAttempts = none ∧
    (Agent.connectOk s).reconnectCount = 0 := by
  have h1 := failureDelays_closed cfg k 0 (by omega)
  simp only [Nat.sub_zero] at h1
  have h1' : Agent.failureDelays cfg 0 k =
      (List.range cfg.reconnectAttempts).map
        (fun i => cfg.reconnectDelay * (i + 1)) := by
    rw [h1]
    apply List.map_congr_left
    intro a _
    simp
  refine ⟨h1', ?_, ?_, rfl⟩
  · rw [h1']
    simp
  · simp [Agent.reconnectStep]

/-- Witness for C5 with a budget of 3 attempts and base delay 5000 ms. -/
theorem c5_backoff_witness :
    (3 : Nat) ≤ 4 ∧
    Agent.failureDelays ⟨3, 5000⟩ 0 4 = [5000, 10000, 15000] := by
  have h := c5_backoff ⟨3, 5000⟩ 4 ⟨false, false, 5, false⟩ (by decide)
  refine ⟨by decide, ?_⟩
  rw [h.1]
  decide

/-- C6 counterexample: a heartbeat tick whose write fails leaves the
client state unchanged and still connected — the write error does not
trigger the Connected → Reconnecting transition. -/
theorem c6_heartbeat_failure_ignored :
    Agent.heartbeatTick ⟨true, true, 0, false⟩ false =
      (⟨true, true, 0, false⟩, .emit) ∧
    (Agent.heartbeatTick ⟨true, true, 0, false⟩ false).1.connected = true :=
  ⟨rfl, rfl⟩

/-- C6 amended: while connected with a live connection handle, each tick
of the 30-second heartbeat loop emits a heartbeat message, and the state
after the tick is unchanged whether or not the write succeeds — the
write error is ignored, and channel failure is detected only by the read
loop. -/
theorem c6_amended (s : Agent.ClientState) (writeOk : Bool)
    (hc : s.connected = true) (hcs : s.connIsSet = true) :
    Agent.heartbeatTick s writeOk = (s, .emit) := by
  simp [Agent.heartbeatTick, hc, hcs]

/-- Witness for C6 amended at a connected state with a failing write. -/
theorem c6_amended_witness :
    (⟨true, true, 0, false⟩ : Agent.ClientState).connected = true ∧
    Agent.heartbeatTick ⟨true, true, 0, false⟩ false =
      (⟨true, true, 0, false⟩, .emit) :=
  ⟨rfl, c6_amended ⟨true, true, 0, false⟩ false rfl rfl⟩

/-- C7: after `Stop()` closes the stop channel and the connection, the
read loop's teardown still spawns `reconnect()`, which — never
consulting the stop signal — schedules a fresh connection attempt
(delay 5000 ms, counter 1, under the default budget of 10): `Stopped` is
not made permanent by the agent's own logic. -/
theorem c7_stop_not_permanent :
    (Agent.stopClient ⟨true, true, 0, false⟩).stopClosed = true ∧
    Agent.reconnectAttempt ⟨10, 5000⟩
        (Agent.readLoopTeardown (Agent.stopClient ⟨true, true, 0, false⟩)) =
      some (5000, ⟨false, false, 1, true⟩) :=
  ⟨rfl, rfl⟩

/-- C8: when authentication is required and the presented credential
validates against none of the configured tokens, the handshake is
rejected with 401 before any upgrade and the client registry is left
unchanged. -/
theorem c8_auth_rejected (tokens : List String)
    (authHeader hostHdr portHdr clientID : String) (connHandle : Nat)
    (clients : List (String × Relay.Client))
    (hbad : Relay.validateToken tokens authHeader = false) :
    Relay.handleWebSocket true tokens authHeader hostHdr portHdr clientID
        connHandle clients = (.rejected 401, clients) := by
  simp [Relay.handleWebSocket, hbad]

/-- Witness for C8 with the default token set and a wrong bearer token. -/
theorem c8_auth_rejected_witness :
    Relay.validateToken ["default-token"] "Bearer wrong" = false ∧
    Relay.handleWebSocket true ["default-token"] "Bearer wrong" "" "" "client_1"
        1 [] = (.rejected 401, []) :=
  ⟨by decide,
    c8_auth_rejected ["default-token"] "Bearer wrong" "" "" "client_1" 1 []
      (by decide)⟩

/-- C9 counterexample: registering a session under an identifier already
present succeeds (the handshake upgrades) and silently replaces the
existing session's entry — there is no DuplicateSession failure. -/
theorem c9_duplicate_counterexample :
    Relay.handleWebSocket false [] "" "" "" "client_1" 2
        [("client_1", ⟨"client_1", 1, "localhost", 3000⟩)] =
      (.upgraded ⟨"client_1", 2, "localhost", 3000⟩,
       [("client_1", ⟨"client_1", 2, "localhost", 3000⟩)]) ∧
    ((⟨"client_1", 2, "localhost", 3000⟩ : Relay.Client) ≠
      ⟨"client_1", 1, "localhost", 3000⟩) :=
  ⟨by decide, by decide⟩

/-- C9 amended: registering a session whose identifier is already
present succeeds and replaces the existing binding: afterwards the
identifier maps to the new client, and the number of bindings for that
identifier is unchanged (a replacement, not an additional entry). -/
theorem c9_amended (requireAuth : Bool) (tokens : List String)
    (authHeader hostHdr portHdr clientID : String) (connHandle : Nat)
    (clients : List (String × Relay.Client)) (old : Relay.Client)
    (hauth : requireAuth = false ∨ Relay.validateToken tokens authHeader = true)
    (hdup : lookupAssoc clients clientID = some old) :
    ∃ c : Relay.Client,
      Relay.handleWebSocket requireAuth tokens authHeader hostHdr portHdr
          clientID connHandle clients =
        (.upgraded c, setAssoc clients clientID c) ∧
      lookupAssoc (setAssoc clients clientID c) clientID = some c ∧
      countKey (setAssoc clients clientID c) clientID =
        countKey clients clientID := by
  have hcond : (requireAuth && !(Relay.validateToken tokens authHeader))
      = false := by
    rcases hauth with h | h <;> simp [h]
  refine ⟨⟨clientID, connHandle,
      (if hostHdr = "" then "localhost" else hostHdr),
      (if Relay.goAtoi portHdr = 0 then 3000 else Relay.goAtoi portHdr)⟩,
    ?_, lookup_setAssoc_self _ _ _,
    countKey_setAssoc_of_mem clients clientID _ old hdup⟩
  simp [Relay.handleWebSocket, hcond]

/-- Witness for C9 amended: a second handshake reusing `client_1`. -/
theorem c9_amended_witness :
    (false = false ∨ Relay.validateToken [] "" = true) ∧
    lookupAssoc
        [("client_1", (⟨"client_1", 1, "localhost", 3000⟩ : Relay.Client))]
        "client_1" = some ⟨"client_1", 1, "localhost", 3000⟩ ∧
    ∃ c : Relay.Client,
      Relay.handleWebSocket false [] "" "" "" "client_1" 2
          [("client_1", ⟨"client_1", 1, "localhost", 3000⟩)] =
        (.upgraded c,
         setAssoc [("client_1", ⟨"client_1", 1, "localhost", 3000⟩)]
           "client_1" c) ∧
      lookupAssoc
          (setAssoc [("client_1", ⟨"client_1", 1, "localhost", 3000⟩)]
            "client_1" c) "client_1" = some c ∧
      countKey
          (setAssoc [("client_1", ⟨"client_1", 1, "localhost", 3000⟩)]
            "client_1" c) "client_1" =
        countKey
          [("client_1", (⟨"client_1", 1, "localhost", 3000⟩ : Relay.Client))]
          "client_1" :=
  ⟨Or.inl rfl, by decide,
    c9_amended false [] "" "" "" "client_1" 2
      [("client_1", ⟨"client_1", 1, "localhost", 3000⟩)]
      ⟨"client_1", 1, "localhost", 3000⟩ (Or.inl rfl) (by decide)⟩

/-- C10: a handshake that passes (or skips) authentication is always
upgraded, never rejected for target metadata; an empty `X-Tunnel-Host`
defaults the host to `"localhost"`, and an absent `X-Tunnel-Port` or one
that does not parse to a nonzero integer defaults the port to 3000. -/
theorem c10_metadata_defaults (requireAuth : Bool) (tokens : List String)
    (authHeader hostHdr portHdr clientID : String) (connHandle : Nat)
    (clients : List (String × Relay.Client))
    (hauth : requireAuth = false ∨
      Relay.validateToken tokens authHeader = true) :
    ∃ c : Relay.Client,
      (Relay.handleWebSocket requireAuth tokens authHeader hostHdr portHdr
          clientID connHandle clients).1 = .upgraded c ∧
      (hostHdr = "" → c.host = "localhost") ∧
      (hostHdr ≠ "" → c.host = hostHdr) ∧
      (portHdr = "" → c.port = 3000) ∧
      (Relay.goAtoi portHdr = 0 → c.port = 3000) ∧
      (Relay.goAtoi portHdr ≠ 0 → c.port = Relay.goAtoi portHdr) := by
  have hcond : (requireAuth && !(Relay.validateToken tokens authHeader))
      = false := by
    rcases hauth with h | h <;> simp [h]
  refine ⟨⟨clientID, connHandle,
      (if hostHdr = "" then "localhost" else hostHdr),
      (if Relay.goAtoi portHdr = 0 then 3000 else Relay.goAtoi portHdr)⟩,
    ?_, ?_, ?_, ?_, ?_, ?_⟩
  · simp [Relay.handleWebSocket, hcond]
  · intro h
    simp [h]
  · intro h
    simp [h]
  · intro h
    subst h
    simp [show Relay.goAtoi "" = 0 from rfl]
  · intro h
    simp [h]
  · intro h
    simp [h]

/-- Witness for C10: no auth, empty host header, unparseable port. -/
theorem c10_metadata_defaults_witness :
    (false = false ∨ Relay.validateToken [] "" = true) ∧
    ∃ c : Relay.Client,
      (Relay.handleWebSocket false [] "" "" "abc" "client_1" 1 []).1 =
        .upgraded c ∧
      c.host = "localhost" ∧ c.port = 3000 := by
  obtain ⟨c, hc, hh, _, _, hp, _⟩ :=
    c10_metadata_defaults false [] "" "" "abc" "client_1" 1 [] (Or.inl rfl)
  exact ⟨Or.inl rfl, c, hc, hh rfl, hp (by decide)⟩
